import Mathlib

/-!
Verification of the crypto-portfolio simulator (`src/app.py`).

The program has two parts:
* the Price Store `load_crypto_data` (app.py lines 31-55): an incremental
  CSV cache of daily close prices, refreshed from an external source;
* the Portfolio Aggregator (app.py lines 62-98): weight normalization,
  date-window filtering, per-asset growth normalization, weighted portfolio
  value series and summary statistics.

Shallow embedding conventions:
* dates are integers (days), prices and weights are rationals (the Python
  floats, modelled exactly);
* a dataframe row is a date plus an association list of column cells; a
  missing cell (pandas NaN) is an absent key, so `dropna` keeps exactly the
  rows that have a value for every tracked column;
* the two external effects of `load_crypto_data` (the `yf.download` calls)
  are passed in as function parameters, and the returned record reports the
  table handed back, the persisted cache content, and whether a fetch or a
  cache write happened;
* the Streamlit `st.stop()` after the zero-total-weight warning and the
  pandas `IndexError` that `.iloc[0]` raises on an empty frame are the two
  ways the aggregation can end without a result; they are the two
  constructors of `AggError`.
-/

/-- The fixed symbol-to-ticker table (app.py lines 18-24). -/
def TICKERS : List (String × String) :=
  [("BTC", "BTC-USD"), ("ETH", "ETH-USD"), ("XRP", "XRP-USD"),
   ("SOL", "SOL-USD"), ("WLD", "WLD-USD")]

/-- The tracked asset symbols (the keys of `TICKERS`). -/
def trackedCoins : List String := TICKERS.map Prod.fst

/-- One dataframe row: a date and the cells of the non-date columns,
as an association list from column name to value. -/
structure Row where
  date : Int
  cells : List (String × ℚ)
deriving DecidableEq, Repr

/-- Cell lookup: the value of column `c` in row `r`, if present. -/
def Row.cell (r : Row) (c : String) : Option ℚ :=
  (r.cells.find? (fun p => p.1 == c)).map Prod.snd

/-- The price used in arithmetic once presence is established; the default
is never reached on rows that survived `dropna` for a tracked column. -/
def getP (r : Row) (c : String) : ℚ := (r.cell c).getD 0

/-- `df["Date"].max()`: the maximum cached date (app.py line 37).
Meaningful on non-empty caches, which is what the code ever writes. -/
def maxDate (df : List Row) : Int := ((df.map Row.date).max?).getD 0

/-- Rename a provider ticker column back to its short symbol
(`new_data.rename(columns={v: k ...})`, app.py line 45). -/
def renameKey (k : String) : String :=
  match TICKERS.find? (fun p => p.2 == k) with
  | some p => p.1
  | none => k

/-- Rename every cell key of a fetched row from ticker to symbol. -/
def renameRow (r : Row) : Row :=
  ⟨r.date, r.cells.map (fun kv => (renameKey kv.1, kv.2))⟩

/-- `new_data.dropna()` on a freshly fetched frame, whose columns are the
provider tickers: keep only rows having a value for every ticker. -/
def dropnaTickers (rows : List Row) : List Row :=
  rows.filter (fun r => TICKERS.all (fun p => (r.cell p.2).isSome))

/-- The outcome of one `load_crypto_data()` call: the table returned to the
caller, the cache file content afterwards (`none` = still absent), and
whether an external fetch / a cache write happened during the call. -/
structure LoadResult where
  table : List Row
  storedCache : Option (List Row)
  fetched : Bool
  wrote : Bool
deriving DecidableEq, Repr

/-- `load_crypto_data` (app.py lines 32-55), as a function of the current
cache file content, the current calendar date, and the external source
(`fetchRange start today` models `yf.download(..., start, end=today)`,
`fetchYear` models `yf.download(..., period="1y")`; both return frames
keyed by provider tickers, which the code renames to symbols). -/
def load_crypto_data (cache : Option (List Row)) (today : Int)
    (fetchRange : Int → Int → List Row) (fetchYear : List Row) : LoadResult :=
  match cache with
  | some df =>
    if today ≤ maxDate df then
      ⟨df, some df, false, false⟩
    else
      ⟨df ++ (dropnaTickers (fetchRange (maxDate df) today)).map renameRow,
       some (df ++ (dropnaTickers (fetchRange (maxDate df) today)).map renameRow),
       true, true⟩
  | none =>
    ⟨(dropnaTickers fetchYear).map renameRow,
     some ((dropnaTickers fetchYear).map renameRow), true, true⟩

/-- `weights = {k: v / total_weight for k, v in weights.items()}`
(app.py line 82), with the association list standing for the ordered dict. -/
def normalizeWeights (w : List (String × ℚ)) : List (String × ℚ) :=
  w.map (fun p => (p.1, p.2 / (w.map Prod.snd).sum))

/-- `df = data[data["Date"] >= cutoff].copy().dropna()` (app.py line 86):
keep rows dated on or after the cutoff, then drop rows missing any tracked
column. -/
def filterWindow (data : List Row) (cutoff : Int) : List Row :=
  (data.filter (fun r => decide (cutoff ≤ r.date))).filter
    (fun r => trackedCoins.all (fun c => (r.cell c).isSome))

/-- The two ways the script ends without producing a result: the explicit
zero-weight guard (`st.warning` + `st.stop()`, app.py lines 77-79), and the
pandas `IndexError` from `.iloc[0]` on an empty frame (app.py line 90). -/
inductive AggError where
  | invalidAllocation
  | indexError
deriving DecidableEq, Repr

/-- One asset's normalized growth column `df[c] = df[c] / df[c].iloc[0]`
(app.py line 90), with `r0` the first in-window row. -/
def growthSeriesOf (win : List Row) (r0 : Row) (c : String) : List ℚ :=
  win.map (fun r => getP r c / getP r0 c)

/-- `df["Portfolio"] = sum(df[c] * weights[c] for c in weights)`
(app.py line 93), evaluated on the already-normalized columns. -/
def portfolioSeries (win : List Row) (r0 : Row) (w : List (String × ℚ)) : List ℚ :=
  win.map (fun r => (w.map (fun p => getP r p.1 / getP r0 p.1 * p.2)).sum)

/-- The ephemeral result of one Aggregator invocation. -/
structure PortfolioRun where
  dates : List Int
  growthSeries : List (String × List ℚ)
  portfolioValue : List ℚ
  finalValue : ℚ
  growthPct : ℚ
deriving DecidableEq, Repr

/-- Assemble the PortfolioRun from the filtered window `win` (with first
row `r0`) and the normalized weights `w` (app.py lines 89-98):
`PortfolioValue = Portfolio * investment`, `final_value = .iloc[-1]`,
`growth = (final_value / investment - 1) * 100`. -/
def mkRun (win : List Row) (r0 : Row) (w : List (String × ℚ)) (inv : ℚ) :
    PortfolioRun :=
  ⟨win.map Row.date,
   w.map (fun p => (p.1, growthSeriesOf win r0 p.1)),
   (portfolioSeries win r0 w).map (fun x => x * inv),
   ((portfolioSeries win r0 w).map (fun x => x * inv)).getLastD 0,
   (((portfolioSeries win r0 w).map (fun x => x * inv)).getLastD 0 / inv - 1)
     * 100⟩

/-- The Portfolio Aggregator (app.py lines 70-98): refuse a zero raw-weight
total, otherwise normalize the weights, filter the window, and either hit
the unguarded `.iloc[0]` on an empty frame or produce the run. -/
def aggregate (data : List Row) (rawWeights : List (String × ℚ))
    (investment : ℚ) (cutoff : Int) : Except AggError PortfolioRun :=
  if (rawWeights.map Prod.snd).sum = 0 then
    Except.error AggError.invalidAllocation
  else
    match filterWindow data cutoff with
    | [] => Except.error AggError.indexError
    | r0 :: rest =>
      Except.ok (mkRun (r0 :: rest) r0 (normalizeWeights rawWeights) investment)

/-- Sum of an elementwise division is the division of the sum. -/
theorem sum_map_div {α : Type} (l : List α) (f : α → ℚ) (t : ℚ) :
    (l.map (fun a => f a / t)).sum = (l.map f).sum / t := by
  induction l with
  | nil => simp
  | cons a l ih => simp [ih, add_div]

/-- Inversion: a successful aggregation means the raw-weight total was
non-zero, the filtered window was non-empty, and the run is `mkRun` of the
window with the normalized weights. -/
theorem aggregate_ok_elim {data : List Row} {rw : List (String × ℚ)}
    {inv : ℚ} {cutoff : Int} {run : PortfolioRun}
    (h : aggregate data rw inv cutoff = Except.ok run) :
    (rw.map Prod.snd).sum ≠ 0 ∧
    ∃ r0 rest, filterWindow data cutoff = r0 :: rest ∧
      run = mkRun (r0 :: rest) r0 (normalizeWeights rw) inv := by
  unfold aggregate at h
  by_cases htot : (rw.map Prod.snd).sum = 0
  · rw [if_pos htot] at h
    exact absurd h (by simp)
  · rw [if_neg htot] at h
    refine ⟨htot, ?_⟩
    cases hwin : filterWindow data cutoff with
    | nil => rw [hwin] at h; exact absurd h (by simp)
    | cons r0 rest =>
      rw [hwin] at h
      exact ⟨r0, rest, rfl, (Except.ok.injEq _ _ ▸ h).symm⟩

/-! Shared concrete data for witnesses: the spec's example scenario, three
rows with BTC prices 100, 150, 200 and constant prices for the other
tracked coins so that no row is dropped. -/

def sampleData : List Row :=
  [⟨1, [("BTC", 100), ("ETH", 10), ("XRP", 1), ("SOL", 20), ("WLD", 2)]⟩,
   ⟨2, [("BTC", 150), ("ETH", 10), ("XRP", 1), ("SOL", 20), ("WLD", 2)]⟩,
   ⟨3, [("BTC", 200), ("ETH", 10), ("XRP", 1), ("SOL", 20), ("WLD", 2)]⟩]

def sampleRW : List (String × ℚ) := [("BTC", 1)]

def sampleRun : PortfolioRun :=
  ⟨[1, 2, 3], [("BTC", [1, 3/2, 2])], [1000, 1500, 2000], 2000, 100⟩

def fetchNothing : Int → Int → List Row := fun _ _ => []

/-- C1: a zero sum of raw weights makes the Aggregator refuse with the
user-correctable `InvalidAllocation` condition (`st.warning` + `st.stop()`)
before any normalization or series calculation; no PortfolioRun is
produced, and the refusal is not the `IndexError` crash. -/
theorem zero_total_weight_refused (data : List Row) (rw : List (String × ℚ))
    (inv : ℚ) (cutoff : Int) (h : (rw.map Prod.snd).sum = 0) :
    aggregate data rw inv cutoff = Except.error AggError.invalidAllocation := by
  unfold aggregate
  rw [if_pos h]

/-- Witness for C1: the spec's refusal scenario, selectedCoins = ["BTC"]
with raw weight 0. -/
theorem zero_total_weight_refused_witness :
    aggregate sampleData [("BTC", 0)] 1000 0
      = Except.error AggError.invalidAllocation :=
  zero_total_weight_refused sampleData [("BTC", 0)] 1000 0 (by simp)

/-- Whenever the raw total is non-zero, the normalized weights sum to
exactly 1. -/
theorem normalizeWeights_sum_eq_one (w : List (String × ℚ))
    (htot : (w.map Prod.snd).sum ≠ 0) :
    ((normalizeWeights w).map Prod.snd).sum = 1 := by
  unfold normalizeWeights
  rw [List.map_map]
  have hcomp :
      (Prod.snd ∘ fun p : String × ℚ => (p.1, p.2 / (w.map Prod.snd).sum))
        = fun p : String × ℚ => p.2 / (w.map Prod.snd).sum := rfl
  rw [hcomp, sum_map_div w Prod.snd ((w.map Prod.snd).sum), div_self htot]

/-- C2: for a non-empty weight map with non-negative raw weights and a
positive total, the normalized weights sum to exactly 1, hence to 1 within
the 1e-9 tolerance. -/
theorem normalized_weights_sum_to_one (w : List (String × ℚ)) (hne : w ≠ [])
    (hnn : ∀ p ∈ w, 0 ≤ p.2) (hpos : 0 < (w.map Prod.snd).sum) :
    ((normalizeWeights w).map Prod.snd).sum = 1 ∧
    |((normalizeWeights w).map Prod.snd).sum - 1| ≤ 1 / 1000000000 := by
  have h1 := normalizeWeights_sum_eq_one w (ne_of_gt hpos)
  refine ⟨h1, ?_⟩
  rw [h1]
  norm_num

/-- Witness for C2: raw weights BTC 1/2, ETH 1/4 normalize to 2/3, 1/3. -/
theorem normalized_weights_sum_to_one_witness :
    ((normalizeWeights [("BTC", 1/2), ("ETH", 1/4)]).map Prod.snd).sum = 1 ∧
    |((normalizeWeights [("BTC", 1/2), ("ETH", 1/4)]).map Prod.snd).sum - 1|
      ≤ 1 / 1000000000 :=
  normalized_weights_sum_to_one [("BTC", 1/2), ("ETH", 1/4)]
    (by simp)
    (by intro p hp; fin_cases hp <;> norm_num)
    (by simp; norm_num)

/-- C9 evaluation: a price table whose only row is dated before the cutoff
gives an empty filtered window, and the script reaches the unguarded
`df[c].iloc[0]` and dies with a pandas `IndexError` instead of an explicit
`EmptyWindow`-style guard. -/
theorem empty_window_hits_index_error :
    aggregate sampleData [("BTC", 1)] 1000 5
      = Except.error AggError.indexError := by
  simp [aggregate, sampleData, filterWindow, trackedCoins, TICKERS, Row.cell]

/-- C6: a cache whose maximum stored date is on or after today is returned
parsed but unchanged: no fetch happens, no write happens, and the stored
cache keeps its content. -/
theorem fresh_cache_load_returns_unchanged (df : List Row) (today : Int)
    (fetchRange : Int → Int → List Row) (fetchYear : List Row)
    (hne : df ≠ []) (hfresh : today ≤ maxDate df) :
    (load_crypto_data (some df) today fetchRange fetchYear).table = df ∧
    (load_crypto_data (some df) today fetchRange fetchYear).storedCache
      = some df ∧
    (load_crypto_data (some df) today fetchRange fetchYear).fetched = false ∧
    (load_crypto_data (some df) today fetchRange fetchYear).wrote = false := by
  simp [load_crypto_data, hfresh]

/-- Witness for C6: a one-row cache dated 5 queried on day 4. -/
theorem fresh_cache_load_returns_unchanged_witness :
    (load_crypto_data (some [⟨5, [("BTC", 100)]⟩]) 4 fetchNothing []).table
      = [⟨5, [("BTC", 100)]⟩] ∧
    (load_crypto_data (some [⟨5, [("BTC", 100)]⟩]) 4 fetchNothing []).storedCache
      = some [⟨5, [("BTC", 100)]⟩] ∧
    (load_crypto_data (some [⟨5, [("BTC", 100)]⟩]) 4 fetchNothing []).fetched
      = false ∧
    (load_crypto_data (some [⟨5, [("BTC", 100)]⟩]) 4 fetchNothing []).wrote
      = false :=
  fresh_cache_load_returns_unchanged [⟨5, [("BTC", 100)]⟩] 4 fetchNothing []
    (by simp) (by simp [maxDate])

/-- C8: an incremental refresh only appends: the merged cache is at least
as long as the prior one, its first rows are exactly the prior rows with
dates and prices unchanged, and the merged table is what gets persisted. -/
theorem refresh_appends_only (df : List Row) (today : Int)
    (fetchRange : Int → Int → List Row) (fetchYear : List Row)
    (hne : df ≠ []) (hstale : ¬ today ≤ maxDate df) :
    df.length ≤ (load_crypto_data (some df) today fetchRange fetchYear).table.length ∧
    (load_crypto_data (some df) today fetchRange fetchYear).table.take df.length
      = df ∧
    (load_crypto_data (some df) today fetchRange fetchYear).storedCache
      = some (load_crypto_data (some df) today fetchRange fetchYear).table := by
  refine ⟨?_, ?_, ?_⟩ <;>
    simp [load_crypto_data, hstale, List.take_left]

/-- Witness for C8: a one-row cache dated 5 refreshed on day 7 with an
empty fetch result. -/
theorem refresh_appends_only_witness :
    [Row.mk 5 [("BTC", 100)]].length ≤
      (load_crypto_data (some [⟨5, [("BTC", 100)]⟩]) 7 fetchNothing []).table.length ∧
    (load_crypto_data (some [⟨5, [("BTC", 100)]⟩]) 7 fetchNothing []).table.take
        [Row.mk 5 [("BTC", 100)]].length = [⟨5, [("BTC", 100)]⟩] ∧
    (load_crypto_data (some [⟨5, [("BTC", 100)]⟩]) 7 fetchNothing []).storedCache
      = some (load_crypto_data (some [⟨5, [("BTC", 100)]⟩]) 7 fetchNothing []).table :=
  refresh_appends_only [⟨5, [("BTC", 100)]⟩] 7 fetchNothing []
    (by simp) (by simp [maxDate])

/-! C7 concrete scenario: a cache ending at day 9, queried twice on day 10,
while the provider has no data newer than day 9.  `yf.download` is called
with `start=last_date` (inclusive), so it returns the already-cached day-9
row again, keyed by provider tickers. -/

def overlapCache : List Row :=
  [⟨9, [("BTC", 100), ("ETH", 10), ("XRP", 1), ("SOL", 20), ("WLD", 2)]⟩]

def overlapFetch : Int → Int → List Row :=
  fun _ _ =>
    [⟨9, [("BTC-USD", 100), ("ETH-USD", 10), ("XRP-USD", 1),
          ("SOL-USD", 20), ("WLD-USD", 2)]⟩]

/-- Counterexample to C7: on a day with no new data, the first load already
appends a duplicate of the boundary row (the date column loses
`Nodup`), and the second load returns a table different from the first. -/
theorem load_same_day_not_idempotent :
    (load_crypto_data
        ((load_crypto_data (some overlapCache) 10 overlapFetch []).storedCache)
        10 overlapFetch []).table
      ≠ (load_crypto_data (some overlapCache) 10 overlapFetch []).table ∧
    ¬ ((load_crypto_data (some overlapCache) 10 overlapFetch []).table.map
        Row.date).Nodup := by
  constructor
  · intro h
    have hl := congrArg List.length h
    simp [load_crypto_data, overlapCache, overlapFetch, maxDate,
      dropnaTickers, TICKERS, Row.cell, renameRow] at hl
  · simp [load_crypto_data, overlapCache, overlapFetch, maxDate,
      dropnaTickers, TICKERS, Row.cell, renameRow]

/-- C7 amended: load is idempotent within a day when the cache is already
fresh, or when the trailing fetch yields no usable rows; in both cases the
first call returns the cache unchanged and so does a second call on the
resulting stored cache. -/
theorem load_idempotent_of_no_usable_rows (df : List Row) (today : Int)
    (fetchRange : Int → Int → List Row) (fetchYear : List Row)
    (h : today ≤ maxDate df ∨
      dropnaTickers (fetchRange (maxDate df) today) = []) :
    (load_crypto_data (some df) today fetchRange fetchYear).table = df ∧
    (load_crypto_data
        ((load_crypto_data (some df) today fetchRange fetchYear).storedCache)
        today fetchRange fetchYear).table = df := by
  by_cases hf : today ≤ maxDate df
  · simp [load_crypto_data, hf]
  · rcases h with h | h
    · exact absurd h hf
    · simp [load_crypto_data, hf, h]

/-- Witness for the amended C7: a fresh one-row cache dated 5 on day 4. -/
theorem load_idempotent_of_no_usable_rows_witness :
    (load_crypto_data (some [⟨5, [("BTC", 100)]⟩]) 4 fetchNothing []).table
      = [⟨5, [("BTC", 100)]⟩] ∧
    (load_crypto_data
        ((load_crypto_data (some [⟨5, [("BTC", 100)]⟩]) 4 fetchNothing
            []).storedCache)
        4 fetchNothing []).table = [⟨5, [("BTC", 100)]⟩] :=
  load_idempotent_of_no_usable_rows [⟨5, [("BTC", 100)]⟩] 4 fetchNothing []
    (Or.inl (by simp [maxDate]))

/-- C3: for every selected asset `c`, when the filtered window is non-empty
with first row `r0` and `c`'s first in-window price is non-zero, `c`'s
normalized growth series in the produced run starts at exactly 1. -/
theorem growth_series_starts_at_one (data : List Row)
    (rw : List (String × ℚ)) (inv : ℚ) (cutoff : Int) (run : PortfolioRun)
    (c : String) (g : List ℚ) (r0 : Row)
    (hrun : aggregate data rw inv cutoff = Except.ok run)
    (h0 : (filterWindow data cutoff).head? = some r0)
    (hmem : (c, g) ∈ run.growthSeries)
    (hnz : getP r0 c ≠ 0) :
    g.head? = some 1 := by
  obtain ⟨htot, r0', rest, hwin, hrq⟩ := aggregate_ok_elim hrun
  rw [hwin] at h0
  simp only [List.head?_cons, Option.some.injEq] at h0
  subst h0
  subst hrq
  simp only [mkRun] at hmem
  rcases List.mem_map.mp hmem with ⟨p, hpmem, hpeq⟩
  rcases Prod.mk.injEq .. ▸ hpeq with ⟨hc, hg⟩
  subst hc
  rw [← hg]
  simp [growthSeriesOf, div_self hnz]

/-- Witness for C3: the spec's BTC example; the growth series [1, 3/2, 2]
starts at 1. -/
theorem growth_series_starts_at_one_witness :
    ([1, 3/2, 2] : List ℚ).head? = some 1 :=
  growth_series_starts_at_one sampleData sampleRW 1000 0 sampleRun
    "BTC" [1, 3/2, 2] ⟨1, [("BTC", 100), ("ETH", 10), ("XRP", 1),
      ("SOL", 20), ("WLD", 2)]⟩
    (by norm_num [aggregate, sampleData, sampleRW, filterWindow, trackedCoins,
      TICKERS, Row.cell, getP, mkRun, normalizeWeights, portfolioSeries,
      growthSeriesOf, sampleRun])
    (by simp [filterWindow, sampleData, trackedCoins, TICKERS, Row.cell])
    (by norm_num [sampleRun])
    (by norm_num [getP, Row.cell])

/-- C5: on a valid input (non-empty window, non-zero raw total, non-zero
first-day prices for all selected coins), the first portfolio value equals
the investment amount exactly. -/
theorem first_portfolio_value_eq_investment (data : List Row)
    (rw : List (String × ℚ)) (inv : ℚ) (cutoff : Int) (run : PortfolioRun)
    (r0 : Row)
    (hrun : aggregate data rw inv cutoff = Except.ok run)
    (h0 : (filterWindow data cutoff).head? = some r0)
    (hnz : ∀ c ∈ rw.map Prod.fst, getP r0 c ≠ 0) :
    run.portfolioValue.head? = some inv := by
  obtain ⟨htot, r0', rest, hwin, hrq⟩ := aggregate_ok_elim hrun
  rw [hwin] at h0
  simp only [List.head?_cons, Option.some.injEq] at h0
  rw [← h0] at hnz
  subst hrq
  simp only [mkRun, portfolioSeries, List.map_cons, List.head?_cons,
    Option.some.injEq]
  have hsum :
      ((normalizeWeights rw).map
          (fun p => getP r0' p.1 / getP r0' p.1 * p.2)).sum
        = ((normalizeWeights rw).map Prod.snd).sum := by
    apply congrArg List.sum
    apply List.map_congr_left
    intro p hp
    have hkey : p.1 ∈ rw.map Prod.fst := by
      rcases List.mem_map.mp hp with ⟨q, hq, hqe⟩
      rw [← hqe]
      exact List.mem_map.mpr ⟨q, hq, rfl⟩
    rw [div_self (hnz _ hkey), one_mul]
  rw [hsum, normalizeWeights_sum_eq_one rw htot, one_mul]

/-- Zipping a list with its own image under `g` pairs each element with its
image. -/
theorem zip_self_map {α β : Type} (l : List α) (g : α → β) :
    l.zip (l.map g) = l.map (fun a => (a, g a)) := by
  induction l with
  | nil => rfl
  | cons a l ih => simp [ih]

/-- C4: on any successful run, the portfolio value at every in-window index
is the investment times the weight-weighted sum of the per-asset growth
values there, the final value is the last portfolio value, and the growth
percentage is (finalValue / investment - 1) * 100. -/
theorem portfolio_value_series_formula (data : List Row)
    (rw : List (String × ℚ)) (inv : ℚ) (cutoff : Int) (run : PortfolioRun)
    (hrun : aggregate data rw inv cutoff = Except.ok run) :
    (∀ i, i < run.portfolioValue.length →
      run.portfolioValue.getD i 0 =
        inv * ((rw.zip run.growthSeries).map
          (fun q => q.1.2 / (rw.map Prod.snd).sum * (q.2.2.getD i 0))).sum) ∧
    run.finalValue = run.portfolioValue.getLastD 0 ∧
    run.growthPct = (run.finalValue / inv - 1) * 100 := by
  obtain ⟨htot, r0, rest, hwin, hrq⟩ := aggregate_ok_elim hrun
  subst hrq
  refine ⟨?_, rfl, rfl⟩
  intro i hi
  have hlen : i < (r0 :: rest).length := by
    simpa [mkRun, portfolioSeries] using hi
  have hget : (r0 :: rest)[i]? = some ((r0 :: rest).get ⟨i, hlen⟩) :=
    List.getElem?_eq_getElem hlen
  have hgs : (mkRun (r0 :: rest) r0 (normalizeWeights rw) inv).growthSeries
      = rw.map (fun p => (p.1, growthSeriesOf (r0 :: rest) r0 p.1)) := by
    simp [mkRun, normalizeWeights, List.map_map, Function.comp]
  rw [hgs, zip_self_map]
  simp only [mkRun, portfolioSeries, growthSeriesOf, normalizeWeights,
    List.map_map, List.getD_eq_getElem?_getD, List.getElem?_map, hget,
    Option.map_some', Option.getD_some, Function.comp]
  rw [mul_comm]
  apply congrArg (fun s : ℚ => inv * s)
  apply congrArg List.sum
  apply List.map_congr_left
  intro p hp
  simp only [Function.comp, List.getElem?_map, hget, Option.map_some',
    Option.getD_some]
  ring

/-- Witness for C4: the spec's BTC example at index 1 of the series. -/
theorem portfolio_value_series_formula_witness :
    sampleRun.portfolioValue.getD 1 0 =
      1000 * ((sampleRW.zip sampleRun.growthSeries).map
        (fun q => q.1.2 / (sampleRW.map Prod.snd).sum * (q.2.2.getD 1 0))).sum ∧
    sampleRun.finalValue = sampleRun.portfolioValue.getLastD 0 ∧
    sampleRun.growthPct = (sampleRun.finalValue / 1000 - 1) * 100 := by
  have h := portfolio_value_series_formula sampleData sampleRW 1000 0 sampleRun
    (by norm_num [aggregate, sampleData, sampleRW, filterWindow, trackedCoins,
      TICKERS, Row.cell, getP, mkRun, normalizeWeights, portfolioSeries,
      growthSeriesOf, sampleRun])
  exact ⟨h.1 1 (by norm_num [sampleRun]), h.2.1, h.2.2⟩

/-- Witness for C5: the spec's BTC example starts at the invested 1000. -/
theorem first_portfolio_value_eq_investment_witness :
    sampleRun.portfolioValue.head? = some 1000 :=
  first_portfolio_value_eq_investment sampleData sampleRW 1000 0 sampleRun
    ⟨1, [("BTC", 100), ("ETH", 10), ("XRP", 1), ("SOL", 20), ("WLD", 2)]⟩
    (by norm_num [aggregate, sampleData, sampleRW, filterWindow, trackedCoins,
      TICKERS, Row.cell, getP, mkRun, normalizeWeights, portfolioSeries,
      growthSeriesOf, sampleRun])
    (by simp [filterWindow, sampleData, trackedCoins, TICKERS, Row.cell])
    (by norm_num [sampleRW, getP, Row.cell])

/-- Mapping a multiplication over a series commutes with taking its last
element (with default 0). -/
theorem getLastD_map_mul (l : List ℚ) (a : ℚ) :
    (l.map (fun x => x * a)).getLastD 0 = l.getLastD 0 * a := by
  rw [List.getLastD_eq_getLast?, List.getLastD_eq_getLast?, List.getLast?_map]
  cases l.getLast? <;> simp

/-- C10: with the same data, weights and cutoff, scaling the investment by
k > 0 keeps the dates, growth series and growth percentage identical, and
scales the portfolio value series and the final value by exactly k. -/
theorem run_homogeneous_in_investment (data : List Row)
    (rw : List (String × ℚ)) (inv k : ℚ) (cutoff : Int)
    (run1 run2 : PortfolioRun)
    (h1 : aggregate data rw inv cutoff = Except.ok run1)
    (h2 : aggregate data rw (k * inv) cutoff = Except.ok run2)
    (hk : 0 < k) (hinv : 0 < inv) :
    run2.dates = run1.dates ∧
    run2.growthSeries = run1.growthSeries ∧
    run2.portfolioValue = run1.portfolioValue.map (fun x => k * x) ∧
    run2.finalValue = k * run1.finalValue ∧
    run2.growthPct = run1.growthPct := by
  obtain ⟨htot, r0, rest, hwin, hr1⟩ := aggregate_ok_elim h1
  obtain ⟨-, r0', rest', hwin', hr2⟩ := aggregate_ok_elim h2
  rw [hwin] at hwin'
  obtain ⟨hr0, hrest⟩ := List.cons.injEq .. ▸ hwin'
  subst hr0
  subst hrest
  subst hr1
  subst hr2
  have hk0 : k ≠ 0 := ne_of_gt hk
  have hinv0 : inv ≠ 0 := ne_of_gt hinv
  have hki0 : k * inv ≠ 0 := mul_ne_zero hk0 hinv0
  refine ⟨rfl, rfl, ?_, ?_, ?_⟩
  · simp only [mkRun, List.map_map]
    apply List.map_congr_left
    intro x hx
    simp only [Function.comp]
    ring
  · simp only [mkRun, getLastD_map_mul]
    ring
  · simp only [mkRun, getLastD_map_mul]
    rw [mul_div_cancel_right₀ _ hki0, mul_div_cancel_right₀ _ hinv0]

/-- The spec's BTC example re-run with investment 2000 = 2 x 1000. -/
def sampleRun2 : PortfolioRun :=
  ⟨[1, 2, 3], [("BTC", [1, 3/2, 2])], [2000, 3000, 4000], 4000, 100⟩

/-- Witness for C10: doubling the 1000 investment on the BTC example
doubles the value series and final value and keeps growth data fixed. -/
theorem run_homogeneous_in_investment_witness :
    sampleRun2.dates = sampleRun.dates ∧
    sampleRun2.growthSeries = sampleRun.growthSeries ∧
    sampleRun2.portfolioValue = sampleRun.portfolioValue.map (fun x => 2 * x) ∧
    sampleRun2.finalValue = 2 * sampleRun.finalValue ∧
    sampleRun2.growthPct = sampleRun.growthPct :=
  run_homogeneous_in_investment sampleData sampleRW 1000 2 0 sampleRun
    sampleRun2
    (by norm_num [aggregate, sampleData, sampleRW, filterWindow, trackedCoins,
      TICKERS, Row.cell, getP, mkRun, normalizeWeights, portfolioSeries,
      growthSeriesOf, sampleRun])
    (by norm_num [aggregate, sampleData, sampleRW, filterWindow, trackedCoins,
      TICKERS, Row.cell, getP, mkRun, normalizeWeights, portfolioSeries,
      growthSeriesOf, sampleRun2])
    (by norm_num) (by norm_num)
